import Mathlib

/-!
Verification of the reparse-point resolution engine and access-enforcement layer
of the Windows Detours sandbox (DetouredFunctions.cpp and friends).

Wide strings (`std::wstring`) are embedded as `List Char`.  `size_t` values that
can carry `npos` are embedded as `Option Nat` (with `none` playing the role of
`npos`); where the source performs unsigned wrap-around arithmetic, the wrap is
modelled explicitly.  Filesystem state and external collaborators (the policy
capability, the report pipe, raw Win32 calls) are abstracted as explicit
environment parameters, as the specification treats them as external interfaces.
-/

namespace BuildXLSandbox

/-- The NUL character, which `std::wstring::operator[]` yields at the
one-past-the-end position. -/
def nullChar : Char := Char.ofNat 0

/-- Models `IsDirectorySeparator` from the path utilities (backslash or slash). -/
def isDirSep (c : Char) : Bool := c == '\\' || c == '/'

/-- Case-insensitive character comparison used by `CaseInsensitiveStringComparer`
(UtilityHelpers.h, lines 22-31): equal, or equal after `towlower`. -/
def ciEqChar (a b : Char) : Bool := a == b || a.toLower == b.toLower

/-- Case-insensitive string equality, models `CaseInsensitiveStringComparer`
(UtilityHelpers.h, lines 12-37): lengths equal and characters `ciEqChar`-equal. -/
def ciEq (a b : List Char) : Bool :=
  a.length == b.length && (List.zip a b).all fun p => ciEqChar p.1 p.2

/-- Lookup in an association list whose keys are compared case-insensitively,
modelling lookups in the `std::map<std::wstring, _, CaseInsensitiveStringLessThan>`
containers used throughout. -/
def lookupCI {α : Type} (m : List (List Char × α)) (k : List Char) : Option α :=
  (m.find? fun e => ciEq e.1 k).map (·.2)

/-- Models `std::map::emplace` on a case-insensitively keyed map: inserts the
pair only when no entry with a `ciEq`-equal key is present. -/
def emplaceCI {α : Type} (m : List (List Char × α)) (k : List Char) (v : α) :
    List (List Char × α) :=
  if m.any fun e => ciEq e.1 k then m else m ++ [(k, v)]

/-- Models `std::wstring::find_last_of(c, p)`: the greatest index `i ≤ p` with
`s[i] = c`, `none` for `npos`.  A bound `p` at or beyond the length is clamped,
exactly as `find_last_of` searches from `min(p, size()-1)` downwards. -/
def findLastOfLe (s : List Char) (c : Char) : Nat → Option Nat
  | 0 => if 0 < s.length && s.getD 0 nullChar == c then some 0 else none
  | p + 1 =>
    if p + 1 < s.length && s.getD (p + 1) nullChar == c then some (p + 1)
    else findLastOfLe s c p

/-- Models `std::wstring::find_last_of(c)` (search bound `npos`). -/
def findLastOf (s : List Char) (c : Char) : Option Nat := findLastOfLe s c s.length

/-- Models `std::vector::pop_back` combined with `back()`: yields the last
element (the top of the worklist) and the remaining vector. -/
def popBack {α : Type} (l : List α) : Option (α × List α) :=
  match l.getLast? with
  | none => none
  | some a => some (a, l.dropLast)

/-- Modelled from the spec: `GetRootLength` of the canonicalization utility
(StringOperations), which is out of scope for the core (spec section 1 and
section 6 list "root-length computation" among the consumed canonicalization
primitives and its source is not part of this repository slice).  A drive-rooted
path `X:\...` has root length 3, a bare drive `X:` root length 2, a path that
starts with a separator has root length 1, everything else 0. -/
def getRootLength (s : List Char) : Nat :=
  match s with
  | '\\' :: _ => 1
  | c :: ':' :: '\\' :: _ => if c.isAlpha then 3 else 0
  | c :: ':' :: _ => if c.isAlpha then 2 else 0
  | _ => 0

/-- Inner skipping loop of `SplitPathsReverse` (DetouredFunctions.cpp, lines
611-614): decrement `i` while `i > rootLength` and `dir[i]` is not a directory
separator. -/
def splitSkipNonSep (dir : List Char) (rootLength : Nat) : Nat → Nat
  | 0 => 0
  | i + 1 =>
    if i + 1 > rootLength && !isDirSep (dir.getD (i + 1) nullChar) then
      splitSkipNonSep dir rootLength i
    else i + 1

/-- Outer loop of `SplitPathsReverse` (DetouredFunctions.cpp, lines 609-629),
fuelled: repeatedly locate the last separator at or above `rootLength`, push the
suffix from it as an atom, truncate `dir`, and continue.  Returns the collected
atoms together with the remaining `dir` (which the wrapper pushes if nonempty). -/
def splitLoopOuter (rootLength : Nat) :
    Nat → List Char → Nat → List (List Char) → (List (List Char) × List Char)
  | 0, dir, _, atoms => (atoms, dir)
  | fuel + 1, dir, i, atoms =>
    if i ≥ rootLength then
      let i' := splitSkipNonSep dir rootLength i
      let atoms := if i' ≥ rootLength then atoms ++ [dir.drop i'] else atoms
      let dir := dir.take i'
      if i' = 0 then (atoms, dir)
      else splitLoopOuter rootLength fuel dir (i' - 1) atoms
    else (atoms, dir)

/-- Models `SplitPathsReverse` (DetouredFunctions.cpp, lines 589-635): split a
path into atoms, deepest first, appending them to `atoms`; each atom other than
a root keeps its leading separator.  The trailing separator, if any, is skipped
without trimming the path, and any remaining nonempty `dir` (the root part) is
pushed last. -/
def splitPathsReverse (path : List Char) (atoms : List (List Char)) :
    List (List Char) :=
  let length := path.length
  let length :=
    if length ≥ 2 && isDirSep (path.getD (length - 1) nullChar) then length - 1
    else length
  let rootLength := getRootLength path
  if length ≤ rootLength then atoms
  else
    let i := length - 1
    let (atoms, dir) := splitLoopOuter rootLength (i + 1) path i atoms
    if dir.isEmpty then atoms else atoms ++ [dir]

/-- Recognizes a leading `.\` in the remaining relative target
(DetouredFunctions.cpp, line 676: `length >= 2 && rt[pos] == '.' && rt[pos+1] == '\\'`). -/
def startsWithDotSlash : List Char → Bool
  | '.' :: '\\' :: _ => true
  | _ => false

/-- Recognizes a leading `..\` in the remaining relative target
(DetouredFunctions.cpp, line 677). -/
def startsWithDotDotSlash : List Char → Bool
  | '.' :: '.' :: '\\' :: _ => true
  | _ => false

/-- Models the conditional pop of the `processed` worklist inside the `..\`
branch (DetouredFunctions.cpp, lines 691-699).  The source pops only when the
vector is nonempty; its inner early-return is guarded by the same emptiness
check and is unreachable. -/
def popProcessed : Option (List (List Char)) → Option (List (List Char))
  | none => none
  | some l => if l.isEmpty then some l else some l.dropLast

/-- Models the `.`/`..` consumption loop of the simple
`TryResolveRelativeTarget` overload (DetouredFunctions.cpp, lines 679-704).
State: the remaining relative target, the current `lastSeparator` (`none` is
`npos`; the loop only runs while it is not `npos`), and the `processed`
worklist.  In the `..\` branch the source computes
`find_last_of('\\', lastSeparator - 1)` on a `size_t`; when `lastSeparator` is
`0` the subtraction wraps around and `find_last_of` then searches the whole
string, which is modelled by the explicit bound below. -/
def dotLoop (result : List Char) :
    List Char → Option Nat → Option (List (List Char)) →
    List Char × Option Nat × Option (List (List Char))
  | rest, none, processed => (rest, none, processed)
  | '.' :: '\\' :: rest, some ls, processed => dotLoop result rest (some ls) processed
  | '.' :: '.' :: '\\' :: rest, some ls, processed =>
    dotLoop result rest
      (findLastOfLe result '\\' (if ls = 0 then result.length else ls - 1))
      (popProcessed processed)
  | rest, some ls, processed => (rest, some ls, processed)

/-- Output of the simple `TryResolveRelativeTarget` overload: the rewritten
`result` string and the in/out worklists. -/
structure SimpleResolveOut where
  result : List Char
  processed : Option (List (List Char))
  needToBeProcessed : Option (List (List Char))
  deriving DecidableEq

/-- Models the simple `TryResolveRelativeTarget` overload (DetouredFunctions.cpp,
lines 644-727): trim a trailing separator, drop the last path atom (the symlink
itself), consume leading `.\`/`..\` segments of the relative target (popping one
more separator per `..\`), and append the remaining target suffix — either
textually, or by seeding the `needToBeProcessed` worklist.  `none` models the
`return false` paths.  Reading `result[result.length()-1]` on an empty `result`
is undefined in the source; the model leaves an empty `result` untrimmed. -/
def tryResolveRelativeTargetSimple (result0 relativeTarget : List Char)
    (processed0 needToBeProcessed0 : Option (List (List Char))) :
    Option SimpleResolveOut :=
  let result :=
    if result0 ≠ [] ∧ result0.getLastD nullChar = '\\' then result0.dropLast
    else result0
  match findLastOf result '\\' with
  | none => none
  | some lastSeparator =>
    match processed0 with
    | some [] => none
    | _ =>
      let processed1 :=
        match processed0 with
        | some l => some l.dropLast
        | none => none
      let (rest, lastSep', processed2) :=
        dotLoop result relativeTarget (some lastSeparator) processed1
      if lastSep' = none ∧ startsWithDotDotSlash rest then none
      else
        let slicedTarget := rest
        let result := result.take (lastSep'.getD 0)
        match needToBeProcessed0 with
        | some l =>
          some ⟨result, processed2, some (splitPathsReverse slicedTarget l)⟩
        | none =>
          some ⟨result ++ '\\' :: slicedTarget, processed2, none⟩

/-! ### Reparse-point layer over an immutable filesystem model -/

/-- Win32 reparse tag for symbolic links. -/
def IO_REPARSE_TAG_SYMLINK : Nat := 0xA000000C

/-- Win32 reparse tag for mount points (junctions). -/
def IO_REPARSE_TAG_MOUNT_POINT : Nat := 0xA0000003

/-- What the filesystem holds at a path, as far as the reparse-point engine is
concerned: nothing actionable, a symlink with a raw target string, a mount
point (junction) with a raw target string, or a reparse point with some other
tag. -/
inductive ReparseKind where
  | notReparse
  | symlink (target : List Char)
  | mountPoint (target : List Char)
  | otherTag (tag : Nat)
  deriving DecidableEq

/-- An immutable filesystem: association of case-insensitive path strings to
their reparse information. -/
def FileSys : Type := List (List Char × ReparseKind)

/-- Reparse information of a path in the filesystem model (paths are compared
case-insensitively, as on the modelled platform). -/
def fsGet (fs : FileSys) (p : List Char) : ReparseKind :=
  ((fs.find? fun e => ciEq e.1 p).map (·.2)).getD .notReparse

/-- Models `IsActionableReparsePointType` (DetouredFunctions.cpp, lines 114-117). -/
def isActionableReparsePointType (reparsePointType : Nat) : Bool :=
  reparsePointType == IO_REPARSE_TAG_SYMLINK ||
  reparsePointType == IO_REPARSE_TAG_MOUNT_POINT

/-- Models `GetReparsePointType` (DetouredFunctions.cpp, lines 90-109) over the
filesystem model: `0` unless the path is a reparse point, otherwise the tag
reported by `FindFirstFileW`'s `dwReserved0`. -/
def getReparsePointTypeFs (fs : FileSys) (p : List Char) : Nat :=
  match fsGet fs p with
  | .notReparse => 0
  | .symlink _ => IO_REPARSE_TAG_SYMLINK
  | .mountPoint _ => IO_REPARSE_TAG_MOUNT_POINT
  | .otherTag t => t

/-- Result of `TryGetReparsePointTarget` (DetouredFunctions.cpp, lines 360-483)
over the immutable filesystem model: the raw target string for an actionable
reparse point (symlink or mount point), `none` otherwise.  On an immutable
filesystem the path cache merely memoizes these values, so it is dropped in
this projection (the cache itself is modelled separately, with state, for the
caching claims). -/
def getReparsePointTargetFs (fs : FileSys) (p : List Char) : Option (List Char) :=
  match fsGet fs p with
  | .symlink t => some t
  | .mountPoint t => some t
  | _ => none

/-- Models the loop of the full `TryResolveRelativeTarget` overload
(DetouredFunctions.cpp, lines 782-837), fuelled because a pathological
filesystem can make the source loop diverge (rooted directory-symlink targets
re-seed the worklist): rebuild the path atom by atom; when a strict prefix is
a directory symlink, either restart from its rooted target — clearing `result`
and `processed` and appending the target's atoms onto the remaining worklist,
since `SplitPathsReverse` takes its atom vector `_Inout_` and the unprocessed
suffix is rebuilt after the new root (DetouredFunctions.cpp, line 825) — or
fold its relative target in with the simple overload; junctions and other
prefixes are left intact. -/
def tryResolveRelativeTargetFullLoop (fs : FileSys) :
    Nat → List Char → List (List Char) → List (List Char) →
    Option (List Char × List (List Char))
  | 0, _, _, _ => none
  | fuel + 1, result0, processed0, needToBeProcessed0 =>
    match popBack needToBeProcessed0 with
    | none => some (result0, processed0)
    | some (atom, rest) =>
      let processed := processed0 ++ [atom]
      let result :=
        if result0 ≠ [] ∧ ¬result0.getLastD nullChar = '\\' ∧
            ¬atom.headD nullChar = '\\' then
          result0 ++ ['\\']
        else result0
      let result := result ++ atom
      if rest.isEmpty then some (result, processed)
      else if getReparsePointTypeFs fs result = IO_REPARSE_TAG_SYMLINK then
        match getReparsePointTargetFs fs result with
        | none => none
        | some target =>
          if getRootLength target > 0 then
            tryResolveRelativeTargetFullLoop fs fuel [] []
              (splitPathsReverse target rest)
          else
            match tryResolveRelativeTargetSimple result target
                (some processed) (some rest) with
            | none => none
            | some out =>
              tryResolveRelativeTargetFullLoop fs fuel out.result
                (out.processed.getD []) (out.needToBeProcessed.getD [])
      else
        tryResolveRelativeTargetFullLoop fs fuel result processed rest

/-- Models the full `TryResolveRelativeTarget` overload (DetouredFunctions.cpp,
lines 773-846): resolve directory symlinks in the prefix of `path`, then fold
the final `relativeTarget` in with the simple overload. -/
def tryResolveRelativeTargetFull (fs : FileSys) (fuel : Nat)
    (path relativeTarget : List Char) : Option (List Char) :=
  match tryResolveRelativeTargetFullLoop fs fuel [] []
      (splitPathsReverse path []) with
  | none => none
  | some (result, _) =>
    match tryResolveRelativeTargetSimple result relativeTarget none none with
    | none => none
    | some out => some out.result

/-- Models `TryGetNextPath` (DetouredFunctions.cpp, lines 851-876): the reparse
target of `path`, returned as-is when rooted and otherwise resolved against
`path` with the full relative-target resolver.  The optional input handle only
feeds the attribute probe in the source and has no counterpart over the pure
filesystem model. -/
def tryGetNextPath (fs : FileSys) (fuel : Nat) (path : List Char) :
    Option (List Char) :=
  match getReparsePointTargetFs fs path with
  | none => none
  | some target =>
    if getRootLength target > 0 then some target
    else tryResolveRelativeTargetFull fs fuel path target

/-! ### The path chain walker -/

/-- Modelled from the spec: `ResolvedPathType` (spec section 3), declared in
ResolvedPathCache.h which is not part of this repository slice:
`Intermediate` tags a path that was itself a reparse point that was followed
further, `FullyResolved` the terminal, non-reparse-point target. -/
inductive ResolvedPathType where
  | Intermediate
  | FullyResolved
  deriving DecidableEq

/-- Modelled from the spec: `CanonicalizedPath::Canonicalize(..).GetPathString()`
(spec section 3 and Glossary: "a normalized, prefix-tagged path string with
`.`/`..` collapsed"); the canonicalization utility itself is out of scope for
the core (spec sections 1 and 6) and its source is not part of this repository
slice.  This model collapses `.` and `..` segments after the root and leaves
already-canonical input unchanged. -/
def canonicalize (s : List Char) : List Char :=
  let r := getRootLength s
  let comps := (s.drop r).splitOn '\\'
  let collapsed : List (List Char) :=
    comps.foldl
      (fun acc c =>
        if c = ['.'] then acc
        else if c = ['.', '.'] then acc.dropLast
        else acc ++ [c])
      []
  s.take r ++ List.intercalate ['\\'] collapsed

/-- Models the loop of `DetourGetFinalPaths` (DetouredFunctions.cpp, lines
891-918), fuelled: record the current path in the ordered chain; if it has a
next path, tag it `Intermediate`, canonicalize the next path and continue
unless the next path already occurs in the chain (cycle: stop as-is); if it has
no next path, tag it `FullyResolved` and stop.  The map uses `emplace` on a
case-insensitively keyed `std::map`, so an existing entry is never overwritten. -/
def detourGetFinalPathsLoop (fs : FileSys) (rfuel : Nat) :
    Nat → List Char → List (List Char) →
    List (List Char × ResolvedPathType) →
    Option (List (List Char) × List (List Char × ResolvedPathType))
  | 0, _, _, _ => none
  | fuel + 1, currentPath, order0, finalPaths =>
    let order := order0 ++ [currentPath]
    match tryGetNextPath fs rfuel currentPath with
    | some nextPath =>
      let finalPaths := emplaceCI finalPaths currentPath .Intermediate
      let currentPath := canonicalize nextPath
      if currentPath ∈ order then some (order, finalPaths)
      else detourGetFinalPathsLoop fs rfuel fuel currentPath order finalPaths
    | none =>
      some (order, emplaceCI finalPaths currentPath .FullyResolved)

/-- Models `DetourGetFinalPaths` (DetouredFunctions.cpp, lines 886-919): the
ordered chain of paths leading to and including the final path, together with
the `ResolvedPathType` tag of each.  `fuel` bounds the number of loop
iterations (the source loop is unbounded); `rfuel` is the fuel of the inner
relative-target resolver. -/
def detourGetFinalPaths (fs : FileSys) (fuel rfuel : Nat) (path : List Char) :
    Option (List (List Char) × List (List Char × ResolvedPathType)) :=
  detourGetFinalPathsLoop fs rfuel fuel path [] []

/-! ### Win32 constants used by the modelled functions -/

/-- Win32 `GENERIC_READ`. -/
def GENERIC_READ : Nat := 0x80000000
/-- Win32 `GENERIC_WRITE`. -/
def GENERIC_WRITE : Nat := 0x40000000
/-- Win32 `GENERIC_ALL`. -/
def GENERIC_ALL : Nat := 0x10000000
/-- Win32 `DELETE` access right. -/
def DELETE : Nat := 0x10000
/-- Win32 `FILE_WRITE_DATA`. -/
def FILE_WRITE_DATA : Nat := 0x2
/-- Win32 `FILE_WRITE_ATTRIBUTES`. -/
def FILE_WRITE_ATTRIBUTES : Nat := 0x100
/-- Win32 `FILE_WRITE_EA`. -/
def FILE_WRITE_EA : Nat := 0x10
/-- Win32 `FILE_APPEND_DATA`. -/
def FILE_APPEND_DATA : Nat := 0x4
/-- Win32 `FILE_READ_DATA`. -/
def FILE_READ_DATA : Nat := 0x1
/-- Win32 `FILE_READ_ATTRIBUTES`. -/
def FILE_READ_ATTRIBUTES : Nat := 0x80
/-- Win32 `FILE_READ_EA`. -/
def FILE_READ_EA : Nat := 0x8
/-- Win32 `FILE_SHARE_READ`. -/
def FILE_SHARE_READ : Nat := 0x1
/-- Win32 `FILE_SHARE_WRITE`. -/
def FILE_SHARE_WRITE : Nat := 0x2
/-- Win32 `FILE_SHARE_DELETE`. -/
def FILE_SHARE_DELETE : Nat := 0x4
/-- Win32 `OPEN_EXISTING`. -/
def OPEN_EXISTING : Nat := 3
/-- Win32 `FILE_FLAG_OPEN_REPARSE_POINT`. -/
def FILE_FLAG_OPEN_REPARSE_POINT : Nat := 0x00200000
/-- Win32 `FILE_FLAG_BACKUP_SEMANTICS`. -/
def FILE_FLAG_BACKUP_SEMANTICS : Nat := 0x02000000
/-- Win32 `FILE_ATTRIBUTE_REPARSE_POINT`. -/
def FILE_ATTRIBUTE_REPARSE_POINT : Nat := 0x400
/-- Win32 `INVALID_FILE_ATTRIBUTES`. -/
def INVALID_FILE_ATTRIBUTES : Nat := 0xFFFFFFFF
/-- Win32 `ERROR_SUCCESS`. -/
def ERROR_SUCCESS : Nat := 0
/-- Win32 `ERROR_ACCESS_DENIED`. -/
def ERROR_ACCESS_DENIED : Nat := 5
/-- Win32 `ERROR_PATH_NOT_FOUND`. -/
def ERROR_PATH_NOT_FOUND : Nat := 3
/-- Win32 `ERROR_INVALID_NAME`. -/
def ERROR_INVALID_NAME : Nat := 123
/-- Win32 `ERROR_INSUFFICIENT_BUFFER`. -/
def ERROR_INSUFFICIENT_BUFFER : Nat := 122
/-- Win32 `ERROR_MORE_DATA`. -/
def ERROR_MORE_DATA : Nat := 234
/-- `INITIAL_REPARSE_DATA_BUILDXL_DETOURS_BUFFER_SIZE_FOR_FILE_NAMES`
(DetouredFunctions.cpp, line 33). -/
def INITIAL_REPARSE_DATA_BUFFER_SIZE : Nat := 1024

/-! ### Stateful model of `TryGetReparsePointTarget` (cache, last-error, device I/O) -/

/-- Environment of raw OS calls and cache gating for the stateful reader model.
`errAt` is an oracle giving the thread last-error value left behind by the
`k`-th raw OS call of the run — the frame theorems hold for every oracle.
`cacheBypassed` is modelled from the spec (section 4.1): the `PathCache_*`
helpers (ResolvedPathCache.h, not part of this repository slice) treat all
operations as no-ops when reparse-point handling is disabled globally or the
policy opts the path out. -/
structure ReaderEnv where
  attrsByHandle : Option Nat
  attrs : List Char → Option Nat
  openOk : List Char → Bool
  deviceResult : List Char → Nat → Except Nat (Nat × List Char)
  errAt : Nat → Nat
  cacheBypassed : Bool

/-- Thread-and-cache state threaded through the stateful reader model.
`deviceQueryCount` counts `DeviceIoControl` reparse queries (the observable
the negative-caching claim is about). -/
structure SandboxState where
  lastError : Nat
  tick : Nat
  resolvingCheckCache : List (List Char × Bool)
  resolvedPathCache : List (List Char × (List Char × Nat))
  deviceQueryCount : Nat
  deriving DecidableEq

/-- A raw OS call: clobbers the thread last-error with the oracle's value. -/
def osCall (env : ReaderEnv) (st : SandboxState) : SandboxState :=
  { st with lastError := env.errAt st.tick, tick := st.tick + 1 }

/-- Modelled from the spec: `PathCache_GetResolvingCheckResult` (spec section
4.1, `IsReparsePoint(path) -> Optional<bool>`): the cached reparse-point-ness
memo, `none` when absent or when the cache is bypassed. -/
def pathCacheGetResolvingCheckResult (env : ReaderEnv) (st : SandboxState)
    (path : List Char) : Option Bool :=
  if env.cacheBypassed then none else lookupCI st.resolvingCheckCache path

/-- Modelled from the spec: `PathCache_InsertResolvingCheckResult` (spec
section 4.1): memoize reparse-point-ness; a no-op when the cache is bypassed. -/
def pathCacheInsertResolvingCheckResult (env : ReaderEnv) (st : SandboxState)
    (path : List Char) (b : Bool) : SandboxState :=
  if env.cacheBypassed then st
  else { st with resolvingCheckCache := emplaceCI st.resolvingCheckCache path b }

/-- Modelled from the spec: `PathCache_GetResolvedPathAndType` (spec section
4.1): the cached (target, reparse-point-type) memo, where type `0` is the
cached negative. -/
def pathCacheGetResolvedPathAndType (env : ReaderEnv) (st : SandboxState)
    (path : List Char) : Option (List Char × Nat) :=
  if env.cacheBypassed then none else lookupCI st.resolvedPathCache path

/-- Modelled from the spec: `PathCache_InsertResolvedPathWithType` (spec
section 4.1): memoize (target, type), including `type = 0` negatives. -/
def pathCacheInsertResolvedPathWithType (env : ReaderEnv) (st : SandboxState)
    (path target : List Char) (ty : Nat) : SandboxState :=
  if env.cacheBypassed then st
  else
    { st with resolvedPathCache := emplaceCI st.resolvedPathCache path (target, ty) }

/-- Models `IsReparsePoint` (DetouredFunctions.cpp, lines 63-85): save the
last-error; prefer `GetFileInformationByHandle` when a handle is supplied,
falling back to `GetFileAttributesW` by name (skipped for a null name); restore
the last-error on every return path. -/
def isReparsePointM (env : ReaderEnv) (name : Option (List Char))
    (hValid : Bool) (st : SandboxState) : Bool × SandboxState :=
  let lastError := st.lastError
  let (viaHandle, st) :=
    if hValid then
      let st := osCall env st
      match env.attrsByHandle with
      | some attrs =>
        (some (((attrs &&& FILE_ATTRIBUTE_REPARSE_POINT) != 0 : Bool)), st)
      | none => (none, st)
    else (none, st)
  match viaHandle with
  | some r => (r, { st with lastError := lastError })
  | none =>
    let (result, st) :=
      match name with
      | none => (false, st)
      | some n =>
        let st := osCall env st
        match env.attrs n with
        | none => (false, st)
        | some attrs =>
          (((attrs &&& FILE_ATTRIBUTE_REPARSE_POINT) != 0 : Bool), st)
    (result, { st with lastError := lastError })

/-- Models the growing-buffer `DeviceIoControl` loop of
`TryGetReparsePointTarget` (DetouredFunctions.cpp, lines 422-446), fuelled
(the spec, section 4.2, notes the loop is practically bounded by the
OS-imposed maximum reparse buffer size): issue the query, on success stop with
`ERROR_SUCCESS` and the parsed (tag, target), on failure double the buffer and
retry while the error is `ERROR_MORE_DATA` or `ERROR_INSUFFICIENT_BUFFER`. -/
def deviceLoop (env : ReaderEnv) (path : List Char) :
    Nat → Nat → Nat → Option (Nat × List Char) → SandboxState →
    Nat × Option (Nat × List Char) × SandboxState
  | 0, _, errorCode, data, st => (errorCode, data, st)
  | fuel + 1, bufferSize, errorCode, data, st =>
    if errorCode == ERROR_MORE_DATA || errorCode == ERROR_INSUFFICIENT_BUFFER then
      let st := osCall env st
      let st := { st with deviceQueryCount := st.deviceQueryCount + 1 }
      match env.deviceResult path bufferSize with
      | .ok tagTarget =>
        deviceLoop env path fuel bufferSize ERROR_SUCCESS (some tagTarget) st
      | .error e => deviceLoop env path fuel (bufferSize * 2) e data st
    else (errorCode, data, st)

/-- Outcome of the stateful `TryGetReparsePointTarget` model: the boolean
return value, the in/out `target` string, and the final state. -/
structure TargetOut where
  status : Bool
  target : List Char
  st : SandboxState
  deriving DecidableEq

/-- The saved-error query region of `TryGetReparsePointTarget`
(DetouredFunctions.cpp, lines 379-482), entered once the path is known to be a
reparse point: consult the (target, type) memo, where a cached type `0` is a
negative; otherwise open (or reuse) a handle, query the reparse data with the
growing-buffer loop, and either cache and return the target of an actionable
tag, or cache a `type = 0` dummy entry on any failure (handle-open failure,
device failure, non-actionable tag).  The saved last-error is restored on
every return path, and the internally opened handle is closed in the epilogue
(`CloseHandle` is a raw OS call).  The `data = none` success branch is
unreachable (a successful device query always carries data) and mirrors the
error path. -/
def tryGetReparsePointTargetQuery (env : ReaderEnv) (path : List Char)
    (hValid : Bool) (targetIn : List Char) (fuel : Nat) (st : SandboxState) :
    TargetOut :=
  let lastError := st.lastError
  match pathCacheGetResolvedPathAndType env st path with
  | some (tgt, ty) =>
    if ty = 0 then ⟨false, tgt, { st with lastError := lastError }⟩
    else ⟨true, tgt, { st with lastError := lastError }⟩
  | none =>
    let (hOk, opened, st) :=
      if hValid then (true, false, st)
      else
        let st := osCall env st
        (env.openOk path, env.openOk path, st)
    if !hOk then
      let st := pathCacheInsertResolvedPathWithType env st path targetIn 0
      ⟨false, targetIn, { st with lastError := lastError }⟩
    else
      let (errorCode, data, st) :=
        deviceLoop env path fuel INITIAL_REPARSE_DATA_BUFFER_SIZE
          ERROR_INSUFFICIENT_BUFFER none st
      let epilogue : SandboxState → SandboxState := fun st =>
        let st := if opened then osCall env st else st
        { st with lastError := lastError }
      if errorCode ≠ ERROR_SUCCESS then
        let st := pathCacheInsertResolvedPathWithType env st path targetIn 0
        ⟨false, targetIn, epilogue st⟩
      else
        match data with
        | none =>
          let st := pathCacheInsertResolvedPathWithType env st path targetIn 0
          ⟨false, targetIn, epilogue st⟩
        | some (tag, tgt) =>
          if !isActionableReparsePointType tag then
            let st := pathCacheInsertResolvedPathWithType env st path targetIn 0
            ⟨false, targetIn, epilogue st⟩
          else
            let st := pathCacheInsertResolvedPathWithType env st path tgt tag
            ⟨true, tgt, epilogue st⟩

/-- Models `TryGetReparsePointTarget` (DetouredFunctions.cpp, lines 360-483):
the reparse-point-ness memo lookup and early `false` return of lines 362-377,
followed by the saved-error query region `tryGetReparsePointTargetQuery`. -/
def tryGetReparsePointTargetM (env : ReaderEnv) (path : List Char)
    (hValid : Bool) (targetIn : List Char) (fuel : Nat) (st0 : SandboxState) :
    TargetOut :=
  let (isRP, st) :=
    match pathCacheGetResolvingCheckResult env st0 path with
    | some b => (b, st0)
    | none =>
      let (b, st1) := isReparsePointM env (some path) hValid st0
      (b, pathCacheInsertResolvingCheckResult env st1 path b)
  if !isRP then ⟨false, targetIn, st⟩
  else tryGetReparsePointTargetQuery env path hValid targetIn fuel st

/-! ### Access checks (FileAccessHelpers.h) and intent helpers (DetoursHelpers.cpp) -/

/-- Models `WantsWriteAccess` (DetoursHelpers.cpp, lines 343-346). -/
def WantsWriteAccess (access : Nat) : Bool :=
  (access &&& (GENERIC_ALL ||| GENERIC_WRITE ||| DELETE ||| FILE_WRITE_DATA |||
    FILE_WRITE_ATTRIBUTES ||| FILE_WRITE_EA ||| FILE_APPEND_DATA)) != 0

/-- Models `WantsReadAccess` (DetoursHelpers.cpp, lines 348-351). -/
def WantsReadAccess (access : Nat) : Bool :=
  (access &&& (GENERIC_READ ||| FILE_READ_DATA)) != 0

/-- Models `WantsProbeOnlyAccess` (DetoursHelpers.cpp, lines 358-363). -/
def WantsProbeOnlyAccess (access : Nat) : Bool :=
  !WantsReadAccess access && !WantsWriteAccess access &&
    (access == 0 || (access &&& (FILE_READ_ATTRIBUTES ||| FILE_READ_EA)) != 0)

/-- Models `ReportLevel` (FileAccessHelpers.h, lines 154-158). -/
inductive ReportLevel where
  | Ignore
  | Report
  | ReportExplicit
  deriving DecidableEq

/-- Models `ResultAction` (FileAccessHelpers.h, lines 160-164). -/
inductive ResultAction where
  | Allow
  | Deny
  | Warn
  deriving DecidableEq

/-- Models `PathValidity` (FileAccessHelpers.h, lines 166-173). -/
inductive PathValidity where
  | Valid
  | PathComponentNotFound
  | Invalid
  deriving DecidableEq

/-- Models `FileExistence` (FileAccessHelpers.h, lines 131-135). -/
inductive FileExistence where
  | Existent
  | Nonexistent
  | InvalidPath
  deriving DecidableEq

/-- Models `FileAccessStatus` as used by `GetFileAccessStatus`
(FileAccessHelpers.h, lines 229-231). -/
inductive FileAccessStatus where
  | Allowed
  | Denied
  deriving DecidableEq

/-- Models `AccessCheckResult` (FileAccessHelpers.h, lines 200-331); the
`RequestedAccess` flag set is kept as a raw `Nat` bit set. -/
structure AccessCheckResult where
  Access : Nat
  Result : ResultAction
  Level : ReportLevel
  Validity : PathValidity
  deriving DecidableEq

/-- Models `AccessCheckResult::ShouldReport` (FileAccessHelpers.h, lines 224-226). -/
def AccessCheckResult.ShouldReport (a : AccessCheckResult) : Bool :=
  a.Level = ReportLevel.Report ∨ a.Level = ReportLevel.ReportExplicit

/-- Models `AccessCheckResult::GetFileAccessStatus` (FileAccessHelpers.h,
lines 229-231). -/
def AccessCheckResult.GetFileAccessStatus (a : AccessCheckResult) :
    FileAccessStatus :=
  if a.Result ≠ ResultAction.Allow then .Denied else .Allowed

/-- Models `AccessCheckResult::ShouldDenyAccess` (FileAccessHelpers.h, lines
235-237). -/
def AccessCheckResult.ShouldDenyAccess (a : AccessCheckResult) : Bool :=
  a.Result = ResultAction.Deny

/-- Models `AccessCheckResult::DenialError` (FileAccessHelpers.h, lines 241-255). -/
def AccessCheckResult.DenialError (a : AccessCheckResult) : Nat :=
  match a.Validity with
  | .Valid => ERROR_ACCESS_DENIED
  | .PathComponentNotFound => ERROR_PATH_NOT_FOUND
  | .Invalid => ERROR_INVALID_NAME

/-- Models `AccessCheckResult::DenialNtStatus` (FileAccessHelpers.h, lines
259-277). -/
def AccessCheckResult.DenialNtStatus (a : AccessCheckResult) : Nat :=
  match a.Validity with
  | .Valid => 0xC0000022
  | .PathComponentNotFound => 0xC000003A
  | .Invalid => 0xC0000033

/-- Models `AccessCheckResult::Combine` (FileAccessHelpers.h, lines 287-315):
requested accesses are unioned; the result action, report level and path
validity are merged by the source's most-restrictive-wins cascades. -/
def AccessCheckResult.Combine (left right : AccessCheckResult) :
    AccessCheckResult :=
  let combinedResultAction := left.Result
  let combinedReportLevel := left.Level
  let combinedPathValidity := left.Validity
  let combinedRequestedAccess := left.Access ||| right.Access
  let combinedResultAction :=
    if right.Result = ResultAction.Deny then ResultAction.Deny
    else if right.Result = ResultAction.Warn ∧
        combinedResultAction = ResultAction.Allow then ResultAction.Warn
    else combinedResultAction
  let combinedReportLevel :=
    if right.Level = ReportLevel.ReportExplicit then ReportLevel.ReportExplicit
    else if right.Level = ReportLevel.Report ∧
        combinedReportLevel = ReportLevel.Ignore then ReportLevel.Report
    else combinedReportLevel
  let combinedPathValidity :=
    if right.Validity = PathValidity.Invalid then PathValidity.Invalid
    else if right.Validity = PathValidity.PathComponentNotFound ∧
        combinedPathValidity = PathValidity.Valid then
      PathValidity.PathComponentNotFound
    else combinedPathValidity
  ⟨combinedRequestedAccess, combinedResultAction, combinedReportLevel,
    combinedPathValidity⟩

/-! ### The access enforcer -/

/-- The `RequestedReadAccess` constructors used by the enforcer
(FileAccessHelpers.h, lines 176-183). -/
inductive RequestedReadAccess where
  | Read
  | Probe
  deriving DecidableEq

/-- Models `FileReadContext` (FileAccessHelpers.h, lines 140-152). -/
structure FileReadContext where
  Existence : FileExistence
  OpenedDirectory : Bool
  deriving DecidableEq

/-- Models `FileOperationContext` (FileAccessHelpers.h, lines 30-129) as built
and mutated by the enforcer. -/
structure OpCtx where
  operation : List Char
  desiredAccess : Nat
  shareMode : Nat
  creationDisposition : Nat
  flagsAndAttributes : Nat
  openedFileOrDirectoryAttributes : Nat
  path : List Char
  deriving DecidableEq

/-- The external `PolicyResult` capability of one initialized path (spec
sections 3 and 6): the access-check results its methods return.  The policy
decision internals (PolicyResult_common.cpp) are outside the enforcer model. -/
structure PolicySim where
  checkReadAccess : RequestedReadAccess → FileReadContext → AccessCheckResult
  checkWriteAccess : AccessCheckResult
  checkCreateDirectoryAccess : AccessCheckResult

/-- Environment of the enforcer: per-path policy initialization (`none` models
`PolicyResult::Initialize` failing, the indeterminate-policy case), the result
of the `IsHandleOrPathToDirectory` probe, and `GetFileAttributesW`. -/
structure EnforceEnv where
  policy : List Char → Option PolicySim
  isHandleOrPathToDirectory : List Char → Nat → Nat → Bool
  pathAttributes : List Char → Option Nat

/-- One observable call into the reporting collaborator: either a
`ReportFileAccess` forwarded by `ReportIfNeeded`, or the dedicated
indeterminate-policy report (`ReportIndeterminatePolicyAndSetLastError`,
modelled from the spec, section 7, as its source is not part of this
repository slice). -/
inductive ReportRec where
  | access (ctx : OpCtx) (status : FileAccessStatus) (check : AccessCheckResult)
      (error : Nat)
  | indeterminatePolicy (ctx : OpCtx)
  deriving DecidableEq

/-- The operation context carried by a report record. -/
def ReportRec.ctxOf : ReportRec → OpCtx
  | .access ctx _ _ _ => ctx
  | .indeterminatePolicy ctx => ctx

/-- Models `ReportIfNeeded` (DetoursHelpers.cpp, lines 1174-1187): forward to
`ReportFileAccess` exactly when the check result says to report. -/
def reportIfNeeded (check : AccessCheckResult) (ctx : OpCtx) (error : Nat) :
    List ReportRec :=
  if check.ShouldReport then [.access ctx check.GetFileAccessStatus check error]
  else []

/-- Outcome of `EnforceReparsePointAccess`: the boolean return value, the
reports emitted, the thread last-error after the final `SetLastError`, the
`NTSTATUS` written through `pNtStatus` (if any), and the operation context the
call built (exposed as an observation; it is the context every emitted report
carries). -/
structure EnforceOut where
  ret : Bool
  reports : List ReportRec
  lastErrorOut : Nat
  ntStatus : Option Nat
  opCtx : OpCtx

/-- Models `EnforceReparsePointAccess` (DetouredFunctions.cpp, lines
1056-1190): build the operation context — the caller's real desired access,
share mode, disposition and flags only for the fully resolved path, and the
fixed `GENERIC_READ`/full-sharing/`OPEN_EXISTING`/reparse-point-preserving
probe context otherwise; initialize the policy (reporting indeterminate policy
and failing when that fails); check write/create-directory policy for write
intents and read/probe policy (with the on-disk existence and directory-ness)
for read intents, combining the results; on denial, switch the last-error to
the denial error and record the denial `NTSTATUS`; always run `ReportIfNeeded`
and restore/set the last-error. -/
def enforceReparsePointAccess (env : EnforceEnv) (reparsePointPath : List Char)
    (dwDesiredAccess dwShareMode dwCreationDisposition dwFlagsAndAttributes : Nat)
    (lastErrorIn : Nat) (enforceAccess isCreateDirectory isFullyResolvedPath : Bool)
    (contextOperationName : List Char) : EnforceOut :=
  let lastError := lastErrorIn
  let accessCheck : AccessCheckResult := ⟨0, .Allow, .Ignore, .Valid⟩
  let opContext : OpCtx :=
    { operation := contextOperationName
      desiredAccess := if isFullyResolvedPath then dwDesiredAccess else GENERIC_READ
      shareMode :=
        if isFullyResolvedPath then dwShareMode
        else FILE_SHARE_READ ||| FILE_SHARE_DELETE ||| FILE_SHARE_WRITE
      creationDisposition :=
        if isFullyResolvedPath then dwCreationDisposition else OPEN_EXISTING
      flagsAndAttributes :=
        if isFullyResolvedPath then dwFlagsAndAttributes
        else FILE_FLAG_OPEN_REPARSE_POINT ||| FILE_FLAG_BACKUP_SEMANTICS
      openedFileOrDirectoryAttributes := INVALID_FILE_ATTRIBUTES
      path := reparsePointPath }
  match env.policy reparsePointPath with
  | none =>
    { ret := false
      reports := [.indeterminatePolicy opContext]
      lastErrorOut := lastError
      ntStatus := none
      opCtx := opContext }
  | some pol =>
    let (accessCheck, opContext) :=
      if enforceAccess then
        let accessCheck :=
          if WantsWriteAccess opContext.desiredAccess then
            if isCreateDirectory then pol.checkCreateDirectoryAccess
            else pol.checkWriteAccess
          else accessCheck
        if WantsReadAccess opContext.desiredAccess ||
            WantsProbeOnlyAccess opContext.desiredAccess then
          let openedDirectory :=
            env.isHandleOrPathToDirectory reparsePointPath
              opContext.desiredAccess opContext.flagsAndAttributes
          let opContext :=
            { opContext with
                openedFileOrDirectoryAttributes :=
                  (env.pathAttributes reparsePointPath).getD
                    INVALID_FILE_ATTRIBUTES }
          let readContext : FileReadContext :=
            { Existence :=
                if (env.pathAttributes reparsePointPath).isSome then
                  FileExistence.Existent
                else FileExistence.Nonexistent
              OpenedDirectory := openedDirectory }
          let accessCheck :=
            AccessCheckResult.Combine accessCheck
              (pol.checkReadAccess
                (if WantsProbeOnlyAccess opContext.desiredAccess then .Probe
                 else .Read)
                readContext)
          (accessCheck, opContext)
        else (accessCheck, opContext)
      else (accessCheck, opContext)
    let (ret, lastError, ntStatus) :=
      if enforceAccess ∧ accessCheck.ShouldDenyAccess then
        (false, accessCheck.DenialError, some accessCheck.DenialNtStatus)
      else (true, lastError, (none : Option Nat))
    { ret := ret
      reports := reportIfNeeded accessCheck opContext lastError
      lastErrorOut := lastError
      ntStatus := ntStatus
      opCtx := opContext }

/-- Running state of the enforcement loop over a resolved chain: the
accumulated success conjunction, the reports emitted so far, the thread
last-error, the last `NTSTATUS` written through `pNtStatus`, and the
fully-resolved path passed back to the caller. -/
structure ChainState where
  success : Bool
  reports : List ReportRec
  lastError : Nat
  ntStatus : Option Nat
  resolvedPath : Option (List Char)

/-- Models the enforcement loop of `EnforceChainOfReparsePointAccesses`
(DetouredFunctions.cpp, lines 1518-1556) over an already-obtained resolved
chain (`cachedOrder` with its `resolvedLookUpTable`): look up each entry's
type (`none` models the `at` lookup throwing on a missing key); a fully
resolved entry (unless full resolving is ignored for the path) is passed back
through `resolvedPath` and skipped entirely when `enforceAccessForResolvedPath`
is off; every other entry — and the fully resolved one otherwise — is enforced
with `EnforceReparsePointAccess`, whose result is ANDed into the running
success without stopping the loop. -/
def enforceChainLoop (env : EnforceEnv) (ignoreFullRPR : Bool)
    (dwDesiredAccess dwShareMode dwCreationDisposition dwFlagsAndAttributes : Nat)
    (enforceAccess isCreateDirectory enforceAccessForResolvedPath : Bool)
    (contextOperationName : List Char)
    (table : List (List Char × ResolvedPathType)) :
    List (List Char) → ChainState → Option ChainState
  | [], st => some st
  | key :: restKeys, st =>
    match lookupCI table key with
    | none => none
    | some ty =>
      let st :=
        if ignoreFullRPR = false ∧ ty = ResolvedPathType.FullyResolved then
          { st with resolvedPath := some key }
        else st
      if ignoreFullRPR = false ∧ ty = ResolvedPathType.FullyResolved ∧
          enforceAccessForResolvedPath = false then
        enforceChainLoop env ignoreFullRPR dwDesiredAccess dwShareMode
          dwCreationDisposition dwFlagsAndAttributes enforceAccess
          isCreateDirectory enforceAccessForResolvedPath contextOperationName
          table restKeys st
      else
        let out :=
          enforceReparsePointAccess env key dwDesiredAccess dwShareMode
            dwCreationDisposition dwFlagsAndAttributes st.lastError
            enforceAccess isCreateDirectory
            (decide (ty = ResolvedPathType.FullyResolved))
            contextOperationName
        enforceChainLoop env ignoreFullRPR dwDesiredAccess dwShareMode
          dwCreationDisposition dwFlagsAndAttributes enforceAccess
          isCreateDirectory enforceAccessForResolvedPath contextOperationName
          table restKeys
          { success := st.success && out.ret
            reports := st.reports ++ out.reports
            lastError := out.lastErrorOut
            ntStatus :=
              match out.ntStatus with
              | some n => some n
              | none => st.ntStatus
            resolvedPath := st.resolvedPath }

/-! ### Concrete filesystems and derived notions used by the theorems -/

/-- The walker's step function: the next path of the current one, already
canonicalized, exactly as `DetourGetFinalPaths` computes it before the cycle
check. -/
def stepC (fs : FileSys) (rfuel : Nat) (p : List Char) : Option (List Char) :=
  (tryGetNextPath fs rfuel p).map canonicalize

/-- Pairwise case-insensitive distinctness of a list of path strings. -/
def ciDistinct : List (List Char) → Bool
  | [] => true
  | x :: xs => (xs.all fun y => !ciEq x y) && ciDistinct xs

/-- The directory-symlink scenario filesystem of the resolution test layout:
`repo\source` is a directory symlink to `intermediate\current`, and
`repo\source\symlink1.link` carries the relative target `..\..\target\file1.txt`. -/
def scenarioSymlinkFs : FileSys :=
  [("repo\\source".data, .symlink "intermediate\\current".data),
   ("repo\\source\\symlink1.link".data, .symlink "..\\..\\target\\file1.txt".data)]

/-- The junction scenario filesystem: `repo\source` is a junction to
`intermediate\current`, and `repo\source\symlink2.link` carries the relative
target `..\target\file2.txt`. -/
def scenarioJunctionFs : FileSys :=
  [("repo\\source".data, .mountPoint "intermediate\\current".data),
   ("repo\\source\\symlink2.link".data, .symlink "..\\target\\file2.txt".data)]

/-- The two-element symlink cycle used to exhibit the walker's
cycle-termination tagging: `C:\A` and `C:\B` are symlinks to each other. -/
def cycleFs : FileSys :=
  [("C:\\A".data, .symlink "C:\\B".data),
   ("C:\\B".data, .symlink "C:\\A".data)]

/-- The acyclic three-hop chain `C:\A → C:\B → C:\C` with rooted targets. -/
def threeHopFs : FileSys :=
  [("C:\\A".data, .symlink "C:\\B".data),
   ("C:\\B".data, .symlink "C:\\C".data)]

/-- The two-element cycle `C:\P ↔ C:\Q` used to witness the cyclic-chain
termination theorem. -/
def cyc2Fs : FileSys :=
  [("C:\\P".data, .symlink "C:\\Q".data),
   ("C:\\Q".data, .symlink "C:\\P".data)]

/-- A reader environment whose filesystem has no reparse points anywhere:
attribute queries find ordinary files, handle opens fail, device queries
error out, and the cache is live. -/
def plainFileEnv : ReaderEnv :=
  { attrsByHandle := none
    attrs := fun _ => some 0x80
    openOk := fun _ => false
    deviceResult := fun _ _ => .error 31
    errAt := fun _ => 0
    cacheBypassed := false }

/-- The fresh sandbox state: no error, no cache entries, no device queries. -/
def freshState : SandboxState :=
  { lastError := 0
    tick := 0
    resolvingCheckCache := []
    resolvedPathCache := []
    deviceQueryCount := 0 }

/-- An allow-and-report access check result. -/
def allowReportACR : AccessCheckResult :=
  ⟨1, ResultAction.Allow, ReportLevel.Report, PathValidity.Valid⟩

/-- A deny-and-report access check result. -/
def denyReportACR : AccessCheckResult :=
  ⟨1, ResultAction.Deny, ReportLevel.Report, PathValidity.Valid⟩

/-- A policy that allows and reports everything. -/
def allowPol : PolicySim :=
  { checkReadAccess := fun _ _ => allowReportACR
    checkWriteAccess := allowReportACR
    checkCreateDirectoryAccess := allowReportACR }

/-- A policy that denies and reports everything. -/
def denyPol : PolicySim :=
  { checkReadAccess := fun _ _ => denyReportACR
    checkWriteAccess := denyReportACR
    checkCreateDirectoryAccess := denyReportACR }

/-- An enforcement environment that denies hop `C:\hopB` and allows everything
else, reporting in both cases. -/
def chainEnv : EnforceEnv :=
  { policy := fun p => if p = "C:\\hopB".data then some denyPol else some allowPol
    isHandleOrPathToDirectory := fun _ _ _ => false
    pathAttributes := fun _ => some 0x80 }

/-! ### Theorems -/

/-- C9: `AccessCheckResult::Combine` merges componentwise, most restrictive
wins: the result action is `Deny` if either operand is `Deny`, else `Warn` if
either is `Warn`, else `Allow`; the report level is `ReportExplicit` if either
is `ReportExplicit`, else `Report` if either is `Report`, else `Ignore`; the
path validity is `Invalid` if either is `Invalid`, else
`PathComponentNotFound` if either is `PathComponentNotFound`, else `Valid`. -/
theorem combine_is_most_restrictive_merge (l r : AccessCheckResult) :
    (AccessCheckResult.Combine l r).Result =
      (if l.Result = ResultAction.Deny ∨ r.Result = ResultAction.Deny then
        ResultAction.Deny
       else if l.Result = ResultAction.Warn ∨ r.Result = ResultAction.Warn then
        ResultAction.Warn
       else ResultAction.Allow) ∧
    (AccessCheckResult.Combine l r).Level =
      (if l.Level = ReportLevel.ReportExplicit ∨
          r.Level = ReportLevel.ReportExplicit then ReportLevel.ReportExplicit
       else if l.Level = ReportLevel.Report ∨ r.Level = ReportLevel.Report then
        ReportLevel.Report
       else ReportLevel.Ignore) ∧
    (AccessCheckResult.Combine l r).Validity =
      (if l.Validity = PathValidity.Invalid ∨
          r.Validity = PathValidity.Invalid then PathValidity.Invalid
       else if l.Validity = PathValidity.PathComponentNotFound ∨
          r.Validity = PathValidity.PathComponentNotFound then
        PathValidity.PathComponentNotFound
       else PathValidity.Valid) := by
  obtain ⟨a, ra, la, va⟩ := l
  obtain ⟨b, rb, lb, vb⟩ := r
  refine ⟨?_, ?_, ?_⟩
  · cases ra <;> cases rb <;> rfl
  · cases la <;> cases lb <;> rfl
  · cases va <;> cases vb <;> rfl

/-- C1: with `repo\source` a directory symlink to `intermediate\current`,
resolving `repo\source\symlink1.link` (whose relative target is
`..\..\target\file1.txt`) substitutes the directory-symlink prefix and yields
`repo\target\file1.txt`; with `repo\source` instead a junction, resolving
`repo\source\symlink2.link` (relative target `..\target\file2.txt`) leaves the
prefix `repo\source` unsubstituted and yields `repo\target\file2.txt`. -/
theorem directory_symlink_vs_junction_resolution :
    tryGetNextPath scenarioSymlinkFs 32 ("repo\\source\\symlink1.link".data) =
      some ("repo\\target\\file1.txt".data) ∧
    tryGetNextPath scenarioJunctionFs 32 ("repo\\source\\symlink2.link".data) =
      some ("repo\\target\\file2.txt".data) := by
  exact ⟨by decide, by decide⟩

/-- C4: evaluation at the failing input.  The prefix `\A\sym` has two
separators (atoms `\`, `A`, `sym`), so a relative target with three leading
`..\` segments demands popping more components than the prefix has and the
composition should fail; instead the simple composer succeeds with `\x`: when
its popping scan reaches separator index `0`, `lastSeparator - 1` wraps around
as a `size_t` and `find_last_of` restarts from the end of the string, so the
escape check is never triggered. -/
theorem relative_target_escape_check_defeated :
    tryResolveRelativeTargetSimple ("\\A\\sym".data) ("..\\..\\..\\x".data)
        none none =
      some ⟨"\\x".data, none, none⟩ ∧
    splitPathsReverse ("\\A\\sym".data) [] =
      ["\\sym".data, "A".data, "\\".data] := by
  exact ⟨by decide, by decide⟩

/-- C2 counterexample: on the cycle `C:\A ↔ C:\B` the walk terminates by cycle
detection after recording `[C:\A, C:\B]`, and the type map tags both entries
`Intermediate` — the last entry inserted before termination is `Intermediate`,
and no entry at all is tagged `FullyResolved`, contradicting the claim that
the last path visited is marked `FullyResolved` on cycle termination. -/
theorem cycle_walk_has_no_fully_resolved_entry :
    detourGetFinalPaths cycleFs 3 9 ("C:\\A".data) =
      some (["C:\\A".data, "C:\\B".data],
        [("C:\\A".data, ResolvedPathType.Intermediate),
         ("C:\\B".data, ResolvedPathType.Intermediate)]) := by
  decide

/-- Case-insensitive equality is reflexive. -/
theorem ciEq_refl (a : List Char) : ciEq a a = true := by
  induction a with
  | nil => rfl
  | cons c t ih =>
    simp only [ciEq, List.zip_cons_cons, List.all_cons, ciEqChar] at ih ⊢
    simp_all

/-- C6: for every acyclic three-hop reparse chain — `A`'s target resolving to
`B`, `B`'s to `C`, and `C` not a reparse point — the walker produces the
ordered chain exactly `[A, B, C]` with `A` and `B` tagged `Intermediate` and
`C` tagged `FullyResolved`. -/
theorem three_hop_chain_order_and_types
    (fs : FileSys) (rfuel : Nat) (A B C tA tB : List Char)
    (hA : tryGetNextPath fs rfuel A = some tA) (hcA : canonicalize tA = B)
    (hB : tryGetNextPath fs rfuel B = some tB) (hcB : canonicalize tB = C)
    (hC : tryGetNextPath fs rfuel C = none)
    (hBA : B ≠ A) (hCA : C ≠ A) (hCB : C ≠ B)
    (hciAB : ciEq A B = false) (hciAC : ciEq A C = false)
    (hciBC : ciEq B C = false) :
    detourGetFinalPaths fs 3 rfuel A =
      some ([A, B, C],
        [(A, ResolvedPathType.Intermediate), (B, ResolvedPathType.Intermediate),
         (C, ResolvedPathType.FullyResolved)]) := by
  unfold detourGetFinalPaths
  unfold detourGetFinalPathsLoop
  rw [hA]
  simp only [hcA, List.nil_append]
  rw [if_neg (by simp [hBA])]
  unfold detourGetFinalPathsLoop
  rw [hB]
  simp only [hcB]
  rw [if_neg (by simp [hCA, hCB])]
  unfold detourGetFinalPathsLoop
  rw [hC]
  simp [emplaceCI, hciAB, hciAC, hciBC, ciEq_refl]

/-- Witness for C6: the three-hop theorem applied to the concrete chain
`C:\A → C:\B → C:\C`. -/
theorem three_hop_chain_order_and_types_witness :
    detourGetFinalPaths threeHopFs 3 9 ("C:\\A".data) =
      some (["C:\\A".data, "C:\\B".data, "C:\\C".data],
        [("C:\\A".data, ResolvedPathType.Intermediate),
         ("C:\\B".data, ResolvedPathType.Intermediate),
         ("C:\\C".data, ResolvedPathType.FullyResolved)]) :=
  three_hop_chain_order_and_types threeHopFs 9
    ("C:\\A".data) ("C:\\B".data) ("C:\\C".data) ("C:\\B".data) ("C:\\C".data)
    (by decide) (by decide) (by decide) (by decide) (by decide)
    (by decide) (by decide) (by decide) (by decide) (by decide) (by decide)

/-- Walking a cyclically linked chain of distinct paths: starting anywhere in
the middle of the recorded prefix `pre`, the loop pushes exactly the remaining
chain and stops at the back edge the moment the next path revisits the chain. -/
theorem walk_cycle_aux (fs : FileSys) (rfuel : Nat) (q : List Char)
    (restList : List (List Char)) :
    ∀ (cur : List Char) (pre : List (List Char))
      (final0 : List (List Char × ResolvedPathType)),
      List.Chain' (fun a b => stepC fs rfuel a = some b) (cur :: restList) →
      stepC fs rfuel (restList.getLastD cur) = some q →
      q ∈ pre ++ cur :: restList →
      (pre ++ cur :: restList).Nodup →
      ∃ fin,
        detourGetFinalPathsLoop fs rfuel (restList.length + 1) cur pre final0 =
          some (pre ++ cur :: restList, fin) := by
  induction restList with
  | nil =>
    intro cur pre final0 _hchain hback hq _hnodup
    obtain ⟨n, hn, hcn⟩ := Option.map_eq_some'.mp hback
    refine ⟨emplaceCI final0 cur ResolvedPathType.Intermediate, ?_⟩
    unfold detourGetFinalPathsLoop
    simp only [List.getLastD_nil] at hn hcn ⊢
    rw [hn]
    simp only [hcn]
    rw [if_pos (by simpa using hq)]
  | cons r rest' ih =>
    intro cur pre final0 hchain hback hq hnodup
    obtain ⟨hstep, hchain'⟩ := List.chain'_cons.mp hchain
    obtain ⟨n, hn, hcn⟩ := Option.map_eq_some'.mp hstep
    have hrnotin : r ∉ pre ++ [cur] := by
      intro hmem
      rcases List.mem_append.mp hmem with h1 | h1
      · have hdis := (List.nodup_append.mp hnodup).2.2
        exact hdis h1 (by simp)
      · have hcurnotin : cur ∉ r :: rest' :=
          ((List.nodup_cons.mp ((List.nodup_append.mp hnodup).2.1))).1
        simp only [List.mem_singleton] at h1
        exact hcurnotin (h1 ▸ List.mem_cons_self r rest')
    have hq' : q ∈ (pre ++ [cur]) ++ r :: rest' := by
      simpa [List.append_assoc] using hq
    have hnodup' : ((pre ++ [cur]) ++ r :: rest').Nodup := by
      simpa [List.append_assoc] using hnodup
    have hback' : stepC fs rfuel (rest'.getLastD r) = some q := by
      rw [List.getLastD_cons] at hback; exact hback
    obtain ⟨fin, hfin⟩ :=
      ih r (pre ++ [cur]) (emplaceCI final0 cur ResolvedPathType.Intermediate)
        hchain' hback' hq' hnodup'
    refine ⟨fin, ?_⟩
    show detourGetFinalPathsLoop fs rfuel (rest'.length + 1 + 1) cur pre final0 = _
    unfold detourGetFinalPathsLoop
    rw [hn]
    simp only [hcn]
    rw [if_neg hrnotin]
    rw [hfin]
    simp [List.append_assoc]

/-- C5: for every cyclic symlink chain — distinct paths `p :: rest`, each
resolving (after canonicalization) to the next and the last back to `p` — the
walker terminates within chain-length iterations (in particular at most chain
length + 1), and the emitted ordered chain is exactly the chain up to the
first revisited path, with no duplicate appended. -/
theorem cyclic_chain_walker_terminates (fs : FileSys) (rfuel : Nat)
    (p : List Char) (rest : List (List Char))
    (hchain : List.Chain' (fun a b => stepC fs rfuel a = some b) (p :: rest))
    (hback : stepC fs rfuel (rest.getLastD p) = some p)
    (hnodup : (p :: rest).Nodup) :
    ∃ fin, detourGetFinalPaths fs (rest.length + 1) rfuel p =
        some (p :: rest, fin) ∧ (p :: rest).Nodup := by
  obtain ⟨fin, h⟩ :=
    walk_cycle_aux fs rfuel p rest p [] [] hchain hback (by simp)
      (by simpa using hnodup)
  exact ⟨fin, by simpa using h, hnodup⟩

/-- Witness for C5: the cyclic-chain theorem applied to the concrete
two-element cycle `C:\P ↔ C:\Q`. -/
theorem cyclic_chain_walker_terminates_witness :
    ∃ fin, detourGetFinalPaths cyc2Fs 2 9 ("C:\\P".data) =
        some (["C:\\P".data, "C:\\Q".data], fin) ∧
      (["C:\\P".data, "C:\\Q".data]).Nodup :=
  cyclic_chain_walker_terminates cyc2Fs 9 ("C:\\P".data) ["C:\\Q".data]
    (List.chain'_cons.mpr ⟨by decide, List.chain'_singleton _⟩)
    (by decide) (by decide)

/-- A case-insensitive lookup in a constant-valued map hits any present key. -/
theorem lookupCI_map_const_mem {α : Type} (v : α) (l : List (List Char))
    (q : List Char) (hq : q ∈ l) :
    lookupCI (l.map fun x => (x, v)) q = some v := by
  induction l with
  | nil => cases hq
  | cons x xs ih =>
    by_cases hx : ciEq x q
    · simp [lookupCI, List.find?_cons_of_pos, hx]
    · have hq' : q ∈ xs := by
        rcases List.mem_cons.mp hq with h | h
        · subst h; exact absurd (ciEq_refl q) hx
        · exact h
      have := ih hq'
      simpa [lookupCI, List.find?_cons_of_neg, hx] using this

/-- A case-insensitive lookup misses a map whose keys are all `ciEq`-different
from the query. -/
theorem lookupCI_map_const_fresh {α : Type} (v : α) (l : List (List Char))
    (q : List Char) (hfresh : ∀ x ∈ l, ciEq x q = false) :
    lookupCI (l.map fun x => (x, v)) q = none := by
  induction l with
  | nil => rfl
  | cons x xs ih =>
    have hx : ciEq x q = false := hfresh x (by simp)
    have := ih fun y hy => hfresh y (by simp [hy])
    simpa [lookupCI, List.find?_cons_of_neg, hx] using this

/-- Case-insensitive lookup distributes over append when the first map misses. -/
theorem lookupCI_append_right {α : Type} (m1 m2 : List (List Char × α))
    (q : List Char) (h : lookupCI m1 q = none) :
    lookupCI (m1 ++ m2) q = lookupCI m2 q := by
  simp only [lookupCI, List.find?_append]
  simp only [lookupCI, Option.map_eq_none'] at h
  simp [h]

/-- Case-insensitive lookup takes the first map's hit over append. -/
theorem lookupCI_append_left {α : Type} (m1 m2 : List (List Char × α))
    (q : List Char) (v : α) (h : lookupCI m1 q = some v) :
    lookupCI (m1 ++ m2) q = some v := by
  simp only [lookupCI, List.find?_append]
  simp only [lookupCI] at h
  obtain ⟨e, he, hv⟩ := Option.map_eq_some'.mp h
  simp [he, hv]

/-- In a pairwise case-insensitively distinct concatenation, every element of
the first part differs case-insensitively from every element of the second. -/
theorem ciDistinct_append (l1 l2 : List (List Char))
    (h : ciDistinct (l1 ++ l2) = true) :
    ∀ x ∈ l1, ∀ y ∈ l2, ciEq x y = false := by
  induction l1 with
  | nil => intro x hx; cases hx
  | cons a l1' ih =>
    intro x hx y hy
    simp only [List.cons_append, ciDistinct, Bool.and_eq_true,
      List.all_eq_true] at h
    rcases List.mem_cons.mp hx with rfl | hx'
    · have := h.1 y (by simp [hy])
      simpa using this
    · exact ih h.2 x hx' y hy

/-- `emplace` on a key missing from the map is a plain append. -/
theorem emplaceCI_of_fresh {α : Type} (m : List (List Char × α))
    (k : List Char) (v : α) (h : (m.any fun e => ciEq e.1 k) = false) :
    emplaceCI m k v = m ++ [(k, v)] := by
  simp [emplaceCI, h]

/-- A constant-valued map over keys `ciEq`-fresh for `k` never matches `k`. -/
theorem map_const_any_fresh {α : Type} (v : α) (l : List (List Char))
    (k : List Char) (hfresh : ∀ x ∈ l, ciEq x k = false) :
    ((l.map fun x => (x, v)).any fun e => ciEq e.1 k) = false := by
  induction l with
  | nil => rfl
  | cons x xs ih =>
    have hx : ciEq x k = false := hfresh x (by simp)
    have := ih fun y hy => hfresh y (by simp [hy])
    simp [hx, this]

/-- The walker loop only ever extends the ordered chain it was given, starting
with the current path. -/
theorem walkLoop_extends (fs : FileSys) (rfuel : Nat) :
    ∀ (fuel : Nat) (cur : List Char) (order0 : List (List Char))
      (fin0 : List (List Char × ResolvedPathType))
      (order : List (List Char)) (fin : List (List Char × ResolvedPathType)),
      detourGetFinalPathsLoop fs rfuel fuel cur order0 fin0 = some (order, fin) →
      ∃ rest, order = order0 ++ cur :: rest := by
  intro fuel
  induction fuel with
  | zero =>
    intro cur order0 fin0 order fin h
    simp [detourGetFinalPathsLoop] at h
  | succ fuel ih =>
    intro cur order0 fin0 order fin h
    unfold detourGetFinalPathsLoop at h
    cases hstep : tryGetNextPath fs rfuel cur with
    | none =>
      rw [hstep] at h
      simp only [Option.some.injEq, Prod.mk.injEq] at h
      exact ⟨[], by simp [← h.1]⟩
    | some nextPath =>
      rw [hstep] at h
      simp only [] at h
      by_cases hmem : canonicalize nextPath ∈ order0 ++ [cur]
      · rw [if_pos hmem] at h
        simp only [Option.some.injEq, Prod.mk.injEq] at h
        exact ⟨[], by simp [← h.1]⟩
      · rw [if_neg hmem] at h
        obtain ⟨rest, hrest⟩ := ih (canonicalize nextPath) (order0 ++ [cur]) _
          order fin h
        exact ⟨canonicalize nextPath :: rest, by
          simpa [List.append_assoc] using hrest⟩

/-- Type-map invariant of the walker loop, relative to an already-recorded
prefix whose entries are all tagged `Intermediate`: on success, every chain
entry but the last is tagged `Intermediate`, and the last is tagged
`FullyResolved` exactly when it has no next path — when the loop instead
stopped because the next path revisits the chain, the last entry is tagged
`Intermediate`. -/
theorem walkLoop_types (fs : FileSys) (rfuel : Nat) :
    ∀ (fuel : Nat) (cur : List Char) (order0 order : List (List Char))
      (fin : List (List Char × ResolvedPathType)),
      detourGetFinalPathsLoop fs rfuel fuel cur order0
          (order0.map fun x => (x, ResolvedPathType.Intermediate)) =
        some (order, fin) →
      ciDistinct order = true →
      (∀ q ∈ order.dropLast, lookupCI fin q = some ResolvedPathType.Intermediate) ∧
      ∃ last, order.getLast? = some last ∧
        ((stepC fs rfuel last = none ∧
            lookupCI fin last = some ResolvedPathType.FullyResolved) ∨
         (∃ t, stepC fs rfuel last = some t ∧ t ∈ order ∧
            lookupCI fin last = some ResolvedPathType.Intermediate)) := by
  intro fuel
  induction fuel with
  | zero =>
    intro cur order0 order fin h _
    simp [detourGetFinalPathsLoop] at h
  | succ fuel ih =>
    intro cur order0 order fin h hci
    obtain ⟨rest, horder⟩ := walkLoop_extends fs rfuel (fuel + 1) cur order0 _
      order fin h
    have hfresh : ∀ x ∈ order0, ciEq x cur = false := by
      intro x hx
      have hd := ciDistinct_append order0 (cur :: rest)
        (by rw [← horder]; exact hci)
      exact hd x hx cur (by simp)
    have hany : ((order0.map fun x => (x, ResolvedPathType.Intermediate)).any
        fun e => ciEq e.1 cur) = false :=
      map_const_any_fresh _ order0 cur hfresh
    have hemp : ∀ v : ResolvedPathType,
        emplaceCI (order0.map fun x => (x, ResolvedPathType.Intermediate)) cur v =
          (order0.map fun x => (x, ResolvedPathType.Intermediate)) ++ [(cur, v)] :=
      fun v => emplaceCI_of_fresh _ cur v hany
    unfold detourGetFinalPathsLoop at h
    cases hstep : tryGetNextPath fs rfuel cur with
    | none =>
      rw [hstep] at h
      simp only [Option.some.injEq, Prod.mk.injEq] at h
      obtain ⟨ho, hf⟩ := h
      subst ho
      rw [← hf, hemp]
      constructor
      · intro q hq
        rw [List.dropLast_concat] at hq
        exact lookupCI_append_left _ _ q _ (lookupCI_map_const_mem _ _ q hq)
      · refine ⟨cur, List.getLast?_concat _, Or.inl ⟨?_, ?_⟩⟩
        · simp [stepC, hstep]
        · rw [lookupCI_append_right _ _ _
            (lookupCI_map_const_fresh _ _ _ hfresh)]
          simp [lookupCI, List.find?_cons_of_pos, ciEq_refl]
    | some nextPath =>
      rw [hstep] at h
      simp only [] at h
      by_cases hmem : canonicalize nextPath ∈ order0 ++ [cur]
      · rw [if_pos hmem] at h
        simp only [Option.some.injEq, Prod.mk.injEq] at h
        obtain ⟨ho, hf⟩ := h
        subst ho
        rw [← hf, hemp]
        constructor
        · intro q hq
          rw [List.dropLast_concat] at hq
          exact lookupCI_append_left _ _ q _ (lookupCI_map_const_mem _ _ q hq)
        · refine ⟨cur, List.getLast?_concat _,
            Or.inr ⟨canonicalize nextPath, ?_, hmem, ?_⟩⟩
          · simp [stepC, hstep]
          · rw [lookupCI_append_right _ _ _
              (lookupCI_map_const_fresh _ _ _ hfresh)]
            simp [lookupCI, List.find?_cons_of_pos, ciEq_refl]
      · rw [if_neg hmem] at h
        rw [hemp] at h
        have hmap : (order0.map fun x => (x, ResolvedPathType.Intermediate)) ++
            [(cur, ResolvedPathType.Intermediate)] =
            (order0 ++ [cur]).map fun x => (x, ResolvedPathType.Intermediate) := by
          simp
        rw [hmap] at h
        exact ih (canonicalize nextPath) (order0 ++ [cur]) order fin h hci

/-- C2 (amended): for every walk the walker completes over case-insensitively
distinct chain entries, every entry inserted before the last is tagged
`Intermediate`; the last entry is tagged `FullyResolved` exactly when the walk
terminated normally (the last path has no next path); when the walk terminated
early because the newly resolved path revisits a path already in the ordered
sequence (a cycle), the last entry is tagged `Intermediate` — no
`FullyResolved` tag is recorded on cycle termination. -/
theorem walker_chain_type_invariant (fs : FileSys) (fuel rfuel : Nat)
    (p : List Char) (order : List (List Char))
    (fin : List (List Char × ResolvedPathType))
    (h : detourGetFinalPaths fs fuel rfuel p = some (order, fin))
    (hci : ciDistinct order = true) :
    (∀ q ∈ order.dropLast, lookupCI fin q = some ResolvedPathType.Intermediate) ∧
    ∃ last, order.getLast? = some last ∧
      ((stepC fs rfuel last = none ∧
          lookupCI fin last = some ResolvedPathType.FullyResolved) ∨
       (∃ t, stepC fs rfuel last = some t ∧ t ∈ order ∧
          lookupCI fin last = some ResolvedPathType.Intermediate)) :=
  walkLoop_types fs rfuel fuel p [] order fin h hci

/-- Witness for the amended C2 invariant: a single non-reparse path walks to a
one-entry chain tagged `FullyResolved`. -/
theorem walker_chain_type_invariant_witness :
    (∀ q ∈ ([("C:\\W".data : List Char)]).dropLast,
        lookupCI [(("C:\\W".data : List Char), ResolvedPathType.FullyResolved)] q =
          some ResolvedPathType.Intermediate) ∧
    ∃ last, ([("C:\\W".data : List Char)]).getLast? = some last ∧
      ((stepC ([] : FileSys) 9 last = none ∧
          lookupCI [(("C:\\W".data : List Char), ResolvedPathType.FullyResolved)]
            last = some ResolvedPathType.FullyResolved) ∨
       (∃ t, stepC ([] : FileSys) 9 last = some t ∧
          t ∈ [("C:\\W".data : List Char)] ∧
          lookupCI [(("C:\\W".data : List Char), ResolvedPathType.FullyResolved)]
            last = some ResolvedPathType.Intermediate)) :=
  walker_chain_type_invariant ([] : FileSys) 1 9 ("C:\\W".data)
    [("C:\\W".data : List Char)]
    [(("C:\\W".data : List Char), ResolvedPathType.FullyResolved)]
    (by decide) (by decide)

/-- A missed case-insensitive lookup means no key matches. -/
theorem lookupCI_none_any_false {α : Type} (m : List (List Char × α))
    (k : List Char) (h : lookupCI m k = none) :
    (m.any fun e => ciEq e.1 k) = false := by
  simp only [lookupCI, Option.map_eq_none'] at h
  rw [List.any_eq_false]
  intro e he
  have := List.find?_eq_none.mp h e he
  simpa using this

/-- Emplacing at a missing key makes subsequent lookups of that key hit it. -/
theorem lookupCI_emplace_self {α : Type} (m : List (List Char × α))
    (k : List Char) (v : α) (h : lookupCI m k = none) :
    lookupCI (emplaceCI m k v) k = some v := by
  rw [emplaceCI_of_fresh m k v (lookupCI_none_any_false m k h)]
  rw [lookupCI_append_right m _ k h]
  simp [lookupCI, List.find?_cons_of_pos, ciEq_refl]

/-- `IsReparsePoint` touches neither the caches, nor the device-query count,
nor — by its saved-and-restored error protocol — the thread last-error. -/
theorem isReparsePointM_frame (env : ReaderEnv) (name : Option (List Char))
    (hValid : Bool) (st : SandboxState) :
    (isReparsePointM env name hValid st).2.lastError = st.lastError ∧
    (isReparsePointM env name hValid st).2.resolvingCheckCache =
      st.resolvingCheckCache ∧
    (isReparsePointM env name hValid st).2.resolvedPathCache =
      st.resolvedPathCache ∧
    (isReparsePointM env name hValid st).2.deviceQueryCount =
      st.deviceQueryCount := by
  simp only [isReparsePointM, osCall]
  cases hValid with
  | false =>
    cases name with
    | none => simp
    | some n => rcases h : env.attrs n with _ | attrs <;> simp [h]
  | true =>
    rcases hh : env.attrsByHandle with _ | battrs
    · cases name with
      | none => simp [hh]
      | some n =>
        rcases h : env.attrs n with _ | attrs <;> simp [hh, h]
    · simp [hh]

/-- C3 (amended): for every path whose attributes do not flag a reparse point,
`TryGetReparsePointTarget` returns `false` and caches the negative result in
the reparse-point boolean check memo; a second call on the same unmodified
path hits that memo, changes nothing, and issues no device-level reparse query
— indeed neither call issues one. -/
theorem negative_boolean_memo_caching (env : ReaderEnv)
    (path targetIn1 targetIn2 : List Char) (fuel1 fuel2 : Nat)
    (st : SandboxState)
    (hbypass : env.cacheBypassed = false)
    (hmiss : lookupCI st.resolvingCheckCache path = none)
    (hnotrp : (isReparsePointM env (some path) false st).1 = false) :
    (tryGetReparsePointTargetM env path false targetIn1 fuel1 st).status = false ∧
    lookupCI (tryGetReparsePointTargetM env path false targetIn1 fuel1
        st).st.resolvingCheckCache path = some false ∧
    (tryGetReparsePointTargetM env path false targetIn1 fuel1
        st).st.deviceQueryCount = st.deviceQueryCount ∧
    (tryGetReparsePointTargetM env path false targetIn2 fuel2
        (tryGetReparsePointTargetM env path false targetIn1 fuel1 st).st).status =
      false ∧
    (tryGetReparsePointTargetM env path false targetIn2 fuel2
        (tryGetReparsePointTargetM env path false targetIn1 fuel1 st).st).st =
      (tryGetReparsePointTargetM env path false targetIn1 fuel1 st).st := by
  have hget : pathCacheGetResolvingCheckResult env st path = none := by
    simp [pathCacheGetResolvingCheckResult, hbypass, hmiss]
  have hframe := isReparsePointM_frame env (some path) false st
  rcases hrp : isReparsePointM env (some path) false st with ⟨b, st1⟩
  rw [hrp] at hnotrp hframe
  simp only at hnotrp hframe
  subst hnotrp
  have h1 : tryGetReparsePointTargetM env path false targetIn1 fuel1 st =
      ⟨false, targetIn1, pathCacheInsertResolvingCheckResult env st1 path false⟩ := by
    unfold tryGetReparsePointTargetM
    rw [hget]
    simp only []
    rw [hrp]
    simp
  have hcache1 : (pathCacheInsertResolvingCheckResult env st1 path
      false).resolvingCheckCache = emplaceCI st.resolvingCheckCache path false := by
    simp [pathCacheInsertResolvingCheckResult, hbypass, hframe.2.1]
  have hlook1 : lookupCI (pathCacheInsertResolvingCheckResult env st1 path
      false).resolvingCheckCache path = some false := by
    rw [hcache1]
    exact lookupCI_emplace_self _ _ _ hmiss
  have h2 : tryGetReparsePointTargetM env path false targetIn2 fuel2
      (pathCacheInsertResolvingCheckResult env st1 path false) =
      ⟨false, targetIn2, pathCacheInsertResolvingCheckResult env st1 path false⟩ := by
    unfold tryGetReparsePointTargetM
    rw [show pathCacheGetResolvingCheckResult env
        (pathCacheInsertResolvingCheckResult env st1 path false) path =
        some false from by
      simp [pathCacheGetResolvingCheckResult, hbypass, hlook1]]
    simp
  refine ⟨by rw [h1], by rw [h1]; exact hlook1, ?_, by rw [h1, h2], by rw [h1, h2]⟩
  rw [h1]
  simp [pathCacheInsertResolvingCheckResult, hbypass, hframe.2.2.2]

/-- Witness for the amended C3: the fresh state and a plain file. -/
theorem negative_boolean_memo_caching_witness :
    (tryGetReparsePointTargetM plainFileEnv ("C:\\f.txt".data) false [] 8
        freshState).status = false ∧
    lookupCI (tryGetReparsePointTargetM plainFileEnv ("C:\\f.txt".data) false []
        8 freshState).st.resolvingCheckCache ("C:\\f.txt".data) = some false ∧
    (tryGetReparsePointTargetM plainFileEnv ("C:\\f.txt".data) false [] 8
        freshState).st.deviceQueryCount = freshState.deviceQueryCount ∧
    (tryGetReparsePointTargetM plainFileEnv ("C:\\f.txt".data) false [] 8
        (tryGetReparsePointTargetM plainFileEnv ("C:\\f.txt".data) false [] 8
          freshState).st).status = false ∧
    (tryGetReparsePointTargetM plainFileEnv ("C:\\f.txt".data) false [] 8
        (tryGetReparsePointTargetM plainFileEnv ("C:\\f.txt".data) false [] 8
          freshState).st).st =
      (tryGetReparsePointTargetM plainFileEnv ("C:\\f.txt".data) false [] 8
        freshState).st :=
  negative_boolean_memo_caching plainFileEnv ("C:\\f.txt".data) [] [] 8 8
    freshState (by decide) (by decide) (by decide)

/-- C3 counterexample: a first call on a plain non-reparse-point path returns
`false` but leaves the resolved-target-and-type memo empty — the negative
type-0 entry the claim promises is not inserted (only the boolean check memo
is): the type-0 dummy is only written for paths whose attributes flagged a
reparse point and whose device query then failed. -/
theorem negative_result_not_in_type_memo :
    (tryGetReparsePointTargetM plainFileEnv ("C:\\g.txt".data) false [] 8
        freshState).status = false ∧
    (tryGetReparsePointTargetM plainFileEnv ("C:\\g.txt".data) false [] 8
        freshState).st.resolvedPathCache = [] ∧
    lookupCI (tryGetReparsePointTargetM plainFileEnv ("C:\\g.txt".data) false []
        8 freshState).st.resolvedPathCache ("C:\\g.txt".data) = none := by
  refine ⟨by decide, by decide, by decide⟩

/-- The saved-error query region restores the thread last-error on every one
of its return paths. -/
theorem query_preserves_last_error (env : ReaderEnv) (path targetIn : List Char)
    (hValid : Bool) (fuel : Nat) (st : SandboxState) :
    (tryGetReparsePointTargetQuery env path hValid targetIn fuel
      st).st.lastError = st.lastError := by
  unfold tryGetReparsePointTargetQuery
  cases hget : pathCacheGetResolvedPathAndType env st path with
  | some p =>
    obtain ⟨tgt, ty⟩ := p
    by_cases hty : ty = 0 <;> simp [hty]
  | none =>
    simp only []
    cases hValid with
    | true =>
      simp only [if_true]
      rcases hdl : deviceLoop env path fuel INITIAL_REPARSE_DATA_BUFFER_SIZE
        ERROR_INSUFFICIENT_BUFFER none st with ⟨ec, data, st2⟩
      rcases data with _ | ⟨tag, tgt⟩ <;> repeat' split
      all_goals rfl
    | false =>
      simp only [Bool.false_eq_true, if_false]
      cases hok : env.openOk path with
      | false => simp [hok]
      | true =>
        simp only [hok]
        rcases hdl : deviceLoop env path fuel INITIAL_REPARSE_DATA_BUFFER_SIZE
          ERROR_INSUFFICIENT_BUFFER none (osCall env st) with ⟨ec, data, st2⟩
        rcases data with _ | ⟨tag, tgt⟩ <;> repeat' split
        all_goals rfl

/-- C10: the thread-visible last-error after `TryGetReparsePointTarget` (and
after its helper `IsReparsePoint`) equals its value before the call, on every
return path — cache hit, successful device query, handle-open failure, and
non-actionable reparse tag — for every oracle of error values the raw OS
calls might leave behind. -/
theorem reader_preserves_last_error (env : ReaderEnv) (path targetIn : List Char)
    (hValid : Bool) (fuel : Nat) (st : SandboxState)
    (name : Option (List Char)) (hv2 : Bool) :
    (tryGetReparsePointTargetM env path hValid targetIn fuel st).st.lastError =
      st.lastError ∧
    (isReparsePointM env name hv2 st).2.lastError = st.lastError := by
  refine ⟨?_, (isReparsePointM_frame env name hv2 st).1⟩
  unfold tryGetReparsePointTargetM
  cases hget : pathCacheGetResolvingCheckResult env st path with
  | some b =>
    simp only []
    cases b with
    | false => rfl
    | true => exact query_preserves_last_error env path targetIn hValid fuel st
  | none =>
    have hframe := (isReparsePointM_frame env (some path) hValid st).1
    rcases hrp : isReparsePointM env (some path) hValid st with ⟨b, st1⟩
    rw [hrp] at hframe
    simp only at hframe
    simp only []
    have hins : (pathCacheInsertResolvingCheckResult env st1 path b).lastError =
        st.lastError := by
      unfold pathCacheInsertResolvingCheckResult
      split <;> simp [hframe]
    cases b with
    | false => simpa using hins
    | true =>
      simp only [Bool.not_true]
      rw [if_neg (by simp)]
      rw [query_preserves_last_error]
      exact hins

/-- Every report emitted by `EnforceReparsePointAccess` — the access report as
well as the indeterminate-policy report — carries the operation context the
call built, whose path is the enforced hop. -/
theorem enforce_reports_carry_ctx (env : EnforceEnv) (path cn : List Char)
    (d s c f e : Nat) (ea icd ifr : Bool) :
    ((enforceReparsePointAccess env path d s c f e ea icd ifr cn).reports.all
      fun r =>
        decide (r.ctxOf = (enforceReparsePointAccess env path d s c f e ea icd
          ifr cn).opCtx) && decide (r.ctxOf.path = path)) = true := by
  unfold enforceReparsePointAccess
  cases hpol : env.policy path with
  | none => simp [ReportRec.ctxOf]
  | some pol =>
    simp only [reportIfNeeded, ReportRec.ctxOf]
    repeat' split
    all_goals simp_all [ReportRec.ctxOf]

/-- C8: for every hop enforced with `isFullyResolvedPath = false`,
`EnforceReparsePointAccess` builds its operation context with `GENERIC_READ`
desired access, full sharing, `OPEN_EXISTING` disposition and
reparse-point-preserving flags, regardless of the caller's actual desired
access, share mode, disposition and flags; only a hop enforced with
`isFullyResolvedPath = true` uses the caller's real values.  Every report the
call emits carries exactly that context. -/
theorem intermediate_hop_probe_context (env : EnforceEnv)
    (path cn : List Char) (d s c f e : Nat) (ea icd : Bool) :
    ((enforceReparsePointAccess env path d s c f e ea icd false
        cn).opCtx.desiredAccess = GENERIC_READ ∧
     (enforceReparsePointAccess env path d s c f e ea icd false
        cn).opCtx.shareMode =
       (FILE_SHARE_READ ||| FILE_SHARE_DELETE ||| FILE_SHARE_WRITE) ∧
     (enforceReparsePointAccess env path d s c f e ea icd false
        cn).opCtx.creationDisposition = OPEN_EXISTING ∧
     (enforceReparsePointAccess env path d s c f e ea icd false
        cn).opCtx.flagsAndAttributes =
       (FILE_FLAG_OPEN_REPARSE_POINT ||| FILE_FLAG_BACKUP_SEMANTICS)) ∧
    ((enforceReparsePointAccess env path d s c f e ea icd true
        cn).opCtx.desiredAccess = d ∧
     (enforceReparsePointAccess env path d s c f e ea icd true
        cn).opCtx.shareMode = s ∧
     (enforceReparsePointAccess env path d s c f e ea icd true
        cn).opCtx.creationDisposition = c ∧
     (enforceReparsePointAccess env path d s c f e ea icd true
        cn).opCtx.flagsAndAttributes = f) ∧
    ((enforceReparsePointAccess env path d s c f e ea icd false cn).reports.all
      fun r =>
        decide (r.ctxOf = (enforceReparsePointAccess env path d s c f e ea icd
          false cn).opCtx)) = true ∧
    ((enforceReparsePointAccess env path d s c f e ea icd true cn).reports.all
      fun r =>
        decide (r.ctxOf = (enforceReparsePointAccess env path d s c f e ea icd
          true cn).opCtx)) = true := by
  refine ⟨?_, ?_, ?_, ?_⟩
  · unfold enforceReparsePointAccess
    cases hpol : env.policy path with
    | none => simp
    | some pol =>
      simp only []
      repeat' split
      all_goals simp_all
  · unfold enforceReparsePointAccess
    cases hpol : env.policy path with
    | none => simp
    | some pol =>
      simp only []
      repeat' split
      all_goals simp_all
  · have h := enforce_reports_carry_ctx env path cn d s c f e ea icd false
    rw [List.all_eq_true] at h ⊢
    intro r hr
    have := h r hr
    simp only [Bool.and_eq_true] at this
    exact this.1
  · have h := enforce_reports_carry_ctx env path cn d s c f e ea icd true
    rw [List.all_eq_true] at h ⊢
    intro r hr
    have := h r hr
    simp only [Bool.and_eq_true] at this
    exact this.1

/-- C7: a denial at one hop does not stop enforcement of the remaining hops —
the chain-enforcement loop calls `EnforceReparsePointAccess` for every hop and
combines the per-hop results with logical AND, so for a three-hop chain
`[A, B, C]` (with `C` the fully resolved hop) where hop `B` is denied and each
hop emits its one report, hops `A` and `C` are still each reported (three
reports, in chain order) and the overall result is failure. -/
theorem chain_enforcement_no_short_circuit (env : EnforceEnv)
    (A B C cn : List Char) (d s c f e0 : Nat) (icd : Bool)
    (hciAB : ciEq A B = false) (hciAC : ciEq A C = false)
    (hciBC : ciEq B C = false)
    (hA : ∀ e, (enforceReparsePointAccess env A d s c f e true icd false cn).ret
      = true)
    (hB : ∀ e, (enforceReparsePointAccess env B d s c f e true icd false cn).ret
      = false)
    (hC : ∀ e, (enforceReparsePointAccess env C d s c f e true icd true cn).ret
      = true)
    (hRA : ∀ e, (enforceReparsePointAccess env A d s c f e true icd false
      cn).reports.length = 1)
    (hRB : ∀ e, (enforceReparsePointAccess env B d s c f e true icd false
      cn).reports.length = 1)
    (hRC : ∀ e, (enforceReparsePointAccess env C d s c f e true icd true
      cn).reports.length = 1) :
    ∃ stOut,
      enforceChainLoop env false d s c f true icd true cn
          [(A, ResolvedPathType.Intermediate), (B, ResolvedPathType.Intermediate),
           (C, ResolvedPathType.FullyResolved)]
          [A, B, C] ⟨true, [], e0, none, none⟩ = some stOut ∧
      stOut.success = false ∧
      stOut.reports.map (fun r => r.ctxOf.path) = [A, B, C] := by
  have lA : lookupCI
      [(A, ResolvedPathType.Intermediate), (B, ResolvedPathType.Intermediate),
       (C, ResolvedPathType.FullyResolved)] A =
      some ResolvedPathType.Intermediate := by
    simp [lookupCI, List.find?_cons_of_pos, ciEq_refl]
  have lB : lookupCI
      [(A, ResolvedPathType.Intermediate), (B, ResolvedPathType.Intermediate),
       (C, ResolvedPathType.FullyResolved)] B =
      some ResolvedPathType.Intermediate := by
    rw [show lookupCI
      [(A, ResolvedPathType.Intermediate), (B, ResolvedPathType.Intermediate),
       (C, ResolvedPathType.FullyResolved)] B =
      lookupCI [(B, ResolvedPathType.Intermediate),
        (C, ResolvedPathType.FullyResolved)] B from by
      simp [lookupCI, List.find?_cons_of_neg, hciAB]]
    simp [lookupCI, List.find?_cons_of_pos, ciEq_refl]
  have lC : lookupCI
      [(A, ResolvedPathType.Intermediate), (B, ResolvedPathType.Intermediate),
       (C, ResolvedPathType.FullyResolved)] C =
      some ResolvedPathType.FullyResolved := by
    rw [show lookupCI
      [(A, ResolvedPathType.Intermediate), (B, ResolvedPathType.Intermediate),
       (C, ResolvedPathType.FullyResolved)] C =
      lookupCI [(C, ResolvedPathType.FullyResolved)] C from by
      simp [lookupCI, List.find?_cons_of_neg, hciAC, hciBC]]
    simp [lookupCI, List.find?_cons_of_pos, ciEq_refl]
  simp [enforceChainLoop, lA, lB, lC]
  constructor
  · intro _ hb
    rw [hB] at hb
    exact absurd hb (by simp)
  · obtain ⟨rA, hrA⟩ := List.length_eq_one.mp (hRA e0)
    obtain ⟨rB, hrB⟩ := List.length_eq_one.mp (hRB
      (enforceReparsePointAccess env A d s c f e0 true icd false cn).lastErrorOut)
    obtain ⟨rC, hrC⟩ := List.length_eq_one.mp (hRC
      (enforceReparsePointAccess env B d s c f
        (enforceReparsePointAccess env A d s c f e0 true icd false
          cn).lastErrorOut true icd false cn).lastErrorOut)
    have pA : rA.ctxOf.path = A := by
      have h := enforce_reports_carry_ctx env A cn d s c f e0 true icd false
      rw [List.all_eq_true] at h
      have := h rA (by rw [hrA]; exact List.mem_singleton_self rA)
      simp only [Bool.and_eq_true, decide_eq_true_eq] at this
      exact this.2
    have pB : rB.ctxOf.path = B := by
      have h := enforce_reports_carry_ctx env B cn d s c f
        (enforceReparsePointAccess env A d s c f e0 true icd false
          cn).lastErrorOut true icd false
      rw [List.all_eq_true] at h
      have := h rB (by rw [hrB]; exact List.mem_singleton_self rB)
      simp only [Bool.and_eq_true, decide_eq_true_eq] at this
      exact this.2
    have pC : rC.ctxOf.path = C := by
      have h := enforce_reports_carry_ctx env C cn d s c f
        (enforceReparsePointAccess env B d s c f
          (enforceReparsePointAccess env A d s c f e0 true icd false
            cn).lastErrorOut true icd false cn).lastErrorOut true icd true
      rw [List.all_eq_true] at h
      have := h rC (by rw [hrC]; exact List.mem_singleton_self rC)
      simp only [Bool.and_eq_true, decide_eq_true_eq] at this
      exact this.2
    rw [hrA, hrB, hrC]
    simp [pA, pB, pC]

/-- Witness for C7: the three-hop chain `C:\hopA, C:\hopB, C:\hopC` under the
environment that denies `C:\hopB` and allows (and reports) the others. -/
theorem chain_enforcement_no_short_circuit_witness :
    ∃ stOut,
      enforceChainLoop chainEnv false GENERIC_READ 0 OPEN_EXISTING 0 true false
          true ("ReparsePointTarget".data)
          [("C:\\hopA".data, ResolvedPathType.Intermediate),
           ("C:\\hopB".data, ResolvedPathType.Intermediate),
           ("C:\\hopC".data, ResolvedPathType.FullyResolved)]
          ["C:\\hopA".data, "C:\\hopB".data, "C:\\hopC".data]
          ⟨true, [], 0, none, none⟩ = some stOut ∧
      stOut.success = false ∧
      stOut.reports.map (fun r => r.ctxOf.path) =
        ["C:\\hopA".data, "C:\\hopB".data, "C:\\hopC".data] :=
  chain_enforcement_no_short_circuit chainEnv ("C:\\hopA".data)
    ("C:\\hopB".data) ("C:\\hopC".data) ("ReparsePointTarget".data)
    GENERIC_READ 0 OPEN_EXISTING 0 0 false
    (by decide) (by decide) (by decide)
    (fun e => rfl) (fun e => rfl) (fun e => rfl)
    (fun e => rfl) (fun e => rfl) (fun e => rfl)

end BuildXLSandbox
